import Mathlib

/-!
Verification of the dolly-carton pipeline (shallow embedding).

Python dictionaries that are iterated in insertion order are modelled as
association lists `List (key × value)`; dictionary membership and item
lookup follow Python semantics (first matching key).  Machine strings are
modelled as Lean `String`/`List Char`; Python's `str.lower`, `str.strip`
and the regex class `\s` are modelled over ASCII, which covers every value
these functions receive in this code base (SQL table names, AGOL titles).
-/

namespace Dolly

/-- Python `d[k]` / `d.get(k)` on an insertion-ordered dictionary modelled
as an association list: value at the first matching key. -/
def pyGet (m : List (String × String)) (k : String) : Option String :=
  (m.find? (fun p => p.1 == k)).map (·.2)

/-- Python `k in d` for the same dictionary model. -/
def pyContains (m : List (String × String)) (k : String) : Bool :=
  m.any (fun p => p.1 == k)

/-- Embedding of `internal.determine_updated_tables`: iterate the
`current_hashes` items and keep every table that is missing from
`stored_hashes` or whose hash differs. -/
def determine_updated_tables (stored_hashes current_hashes : List (String × String)) :
    List String :=
  ((current_hashes.filter
    (fun p => !(pyContains stored_hashes p.1) || pyGet stored_hashes p.1 != some p.2)).map
    Prod.fst)

/-- ASCII model of Python `str.upper` on a single character. -/
def pyUpperChar (c : Char) : Char :=
  if 'a' ≤ c ∧ c ≤ 'z' then Char.ofNat (c.toNat - 32) else c

/-- ASCII model of Python `str.upper`. -/
def pyUpper (s : String) : String :=
  ⟨s.data.map pyUpperChar⟩

/-- ASCII model of Python `str.lower` on a single character. -/
def pyLowerChar (c : Char) : Char :=
  if 'A' ≤ c ∧ c ≤ 'Z' then Char.ofNat (c.toNat + 32) else c

/-- ASCII model of Python `str.lower`. -/
def pyLower (s : String) : String :=
  ⟨s.data.map pyLowerChar⟩

/-- Embedding of `internal._get_geometry_option`: translate a geometry
classification to the GDAL layer-type option; unknown classifications
raise `ValueError` (modelled as `Except.error`). -/
def _get_geometry_option (geometry_type : String) : Except String String :=
  if pyUpper geometry_type = "POLYGON" then .ok "MULTIPOLYGON"
  else if pyUpper geometry_type = "POLYLINE" then .ok "MULTILINESTRING"
  else if pyUpper geometry_type = "STAND ALONE" then .ok "NONE"
  else if pyUpper geometry_type = "POINT" then .ok "POINT"
  else .error ("Unknown geometry type: " ++ geometry_type)

/-- Embedding of `summary.ProcessSummary` (the fields the run summary
accumulates; timing fields are irrelevant to the verified behaviour and
omitted). -/
structure ProcessSummary where
  tables_updated : List String := []
  tables_published : List String := []
  tables_with_errors : List String := []
  updated_item_ids : List (Option String) := []
  published_item_ids : List (Option String) := []
  update_errors : List String := []
  publish_errors : List String := []
  global_errors : List String := []
  feature_count_mismatches : List String := []
  deriving Repr, DecidableEq

/-- Embedding of `ProcessSummary.add_table_updated`: record a table as
updated together with its item id, unless it is already recorded. -/
def ProcessSummary.add_table_updated (s : ProcessSummary) (table : String)
    (item_id : Option String) : ProcessSummary :=
  if table ∈ s.tables_updated then s
  else
    { s with
      tables_updated := s.tables_updated ++ [table]
      updated_item_ids := s.updated_item_ids ++ [item_id] }

/-- Embedding of `ProcessSummary.add_table_published`. -/
def ProcessSummary.add_table_published (s : ProcessSummary) (table : String)
    (item_id : Option String) : ProcessSummary :=
  if table ∈ s.tables_published then s
  else
    { s with
      tables_published := s.tables_published ++ [table]
      published_item_ids := s.published_item_ids ++ [item_id] }

/-- Embedding of `ProcessSummary.add_table_error`: the table name is added
to `tables_with_errors` at most once, while the error detail is appended
to the matching per-stage error list unconditionally. -/
def ProcessSummary.add_table_error (s : ProcessSummary)
    (table error_type error_message : String) : ProcessSummary :=
  let s1 :=
    if table ∈ s.tables_with_errors then s
    else { s with tables_with_errors := s.tables_with_errors ++ [table] }
  let error_detail := table ++ ": " ++ error_message
  if error_type = "update" then
    { s1 with update_errors := s1.update_errors ++ [error_detail] }
  else if error_type = "publish" then
    { s1 with publish_errors := s1.publish_errors ++ [error_detail] }
  else s1

/-- Embedding of `ProcessSummary.add_feature_count_mismatch`: record the
mismatch message and also record it as an update error. -/
def ProcessSummary.add_feature_count_mismatch (s : ProcessSummary) (table : String)
    (source_count final_count : Int) : ProcessSummary :=
  let mismatch_message :=
    table ++ ": Source count " ++ toString source_count ++ " != Final count "
      ++ toString final_count
  let s1 :=
    { s with feature_count_mismatches := s.feature_count_mismatches ++ [mismatch_message] }
  s1.add_table_error table "update"
    ("Feature count mismatch: " ++ toString source_count ++ " -> " ++ toString final_count)

/-- One call against the run summary (the three add operations named by
the duplicate-freedom claim). -/
inductive SummaryOp
  | updated (table : String) (item_id : Option String)
  | published (table : String) (item_id : Option String)
  | tableError (table error_type error_message : String)

/-- Apply one summary call. -/
def applySummaryOp (s : ProcessSummary) : SummaryOp → ProcessSummary
  | .updated t i => s.add_table_updated t i
  | .published t i => s.add_table_published t i
  | .tableError t ty msg => s.add_table_error t ty msg

/-- Run a sequence of summary calls against a fresh summary. -/
def runSummaryOps (ops : List SummaryOp) : ProcessSummary :=
  ops.foldl applySummaryOp {}

/-- `utils.RETRY_MAX_TRIES`. -/
def RETRY_MAX_TRIES : Nat := 3

/-- `utils.RETRY_DELAY_TIME` (seconds). -/
def RETRY_DELAY_TIME : Nat := 2

/-- Embedding of the `_inner_retry` closure inside `utils.retry`.  The
worker is modelled as a state transformer (Python side effects become
explicit state passing); a raised exception is `Except.error`.  The result
carries the worker's final outcome and state together with the list of
back-off waits performed (in seconds), in order. -/
def _inner_retry {σ ε α : Type} (max_tries delay : Nat)
    (worker : σ → Except ε α × σ) (tries : Nat) (s : σ) :
    (Except ε α × σ) × List Nat :=
  match worker s with
  | (.ok v, s1) => ((.ok v, s1), [])
  | (.error e, s1) =>
    if _h : tries ≤ max_tries then
      let r := _inner_retry max_tries delay worker (tries + 1) s1
      (r.1, delay ^ tries :: r.2)
    else ((.error e, s1), [])
termination_by max_tries + 1 - tries

/-- Embedding of `utils.retry` with the default configuration: the first
call is made with `tries = 1`. -/
def retry {σ ε α : Type} (worker : σ → Except ε α × σ) (s : σ) :
    (Except ε α × σ) × List Nat :=
  _inner_retry RETRY_MAX_TRIES RETRY_DELAY_TIME worker 1 s

/-- A worker whose state counts how many times it has been attempted;
`outcomes k` is what the k-th attempt (1-based) returns or raises. -/
def countingWorker {ε α : Type} (outcomes : Nat → Except ε α) (n : Nat) :
    Except ε α × Nat :=
  (outcomes (n + 1), n + 1)

/-- Run `utils.retry` on a counting worker; the final state is the total
number of attempts made. -/
def retryWithOutcomes {ε α : Type} (outcomes : Nat → Except ε α) :
    (Except ε α × Nat) × List Nat :=
  retry (countingWorker outcomes) 0

/-- The ArcGIS API append result: either a bool or a (bool, messages)
tuple. -/
inductive AppendResult
  | asTuple (success : Bool) (messages : List String)
  | asBool (success : Bool)

/-- `append_result[0] if isinstance(append_result, tuple) else
bool(append_result)` from `agol._truncate_and_append`. -/
def appendSuccess : AppendResult → Bool
  | .asTuple b _ => b
  | .asBool b => b

/-- Remote behaviour scripted per call: the reported status of the k-th
truncate call and the result of the k-th append call (both 1-based). -/
structure TruncateAppendEnv where
  truncateStatus : Nat → String
  appendResult : Nat → AppendResult

/-- Observable effects of `_truncate_and_append`: how many truncate and
append calls were issued. -/
structure TruncateAppendCalls where
  truncateCalls : Nat
  appendCalls : Nat
  deriving Repr, DecidableEq

/-- Embedding of the `_worker` closure inside `agol._truncate_and_append`:
truncate (raising unless the reported status is "Completed"), then append
(raising when the bool-or-tuple signal is falsy), with no per-step retry. -/
def _worker (env : TruncateAppendEnv) (s : TruncateAppendCalls) :
    Except String Bool × TruncateAppendCalls :=
  let s1 := { s with truncateCalls := s.truncateCalls + 1 }
  if env.truncateStatus s1.truncateCalls ≠ "Completed" then
    (.error "Failed to truncate existing data in service", s1)
  else
    let s2 := { s1 with appendCalls := s1.appendCalls + 1 }
    if !appendSuccess (env.appendResult s2.appendCalls) then
      (.error "Append failed", s2)
    else
      (.ok true, s2)

/-- Embedding of `agol._truncate_and_append`: the combined worker is
retried as a unit via `utils.retry`. -/
def _truncate_and_append (env : TruncateAppendEnv) :
    (Except String Bool × TruncateAppendCalls) × List Nat :=
  retry (_worker env) ⟨0, 0⟩

/-- Python `d.get(k, default)` for an integer-valued dictionary
(`source_counts.get(table, -1)`). -/
def pyGetIntD (m : List (String × Int)) (k : String) (dflt : Int) : Int :=
  match m.find? (fun p => p.1 == k) with
  | some p => p.2
  | none => dflt

/-- Per-dataset outcome inside the `update_feature_services` loop for one
table: the catalog item is missing, `_truncate_and_append` returned
`False`, some step of the `try` block raised (the exhausted-retry error of
`_truncate_and_append` included), or the truncate-and-append succeeded
with the given post-append remote feature count
(`_count_features_in_agol_service`, `-1` when counting failed). -/
inductive TableOutcome
  | itemMissing
  | appendReturnedFalse
  | raised (message : String)
  | succeeded (post_append_count : Int)

/-- The remote world `update_feature_services` interacts with, scripted
per table.  `current_hashes` is total: the caller computes the batch from
the keys of the current-hash map, so every processed table has a hash. -/
structure UpdateEnv where
  outcome : String → TableOutcome
  item_id : String → Option String
  current_hashes : String → String
  source_counts : List (String × Int)

/-- Observable state accumulated by one `update_feature_services` run:
the run summary, the `has_errors` flag, the `set_table_hash` writes (the
state store lower-cases the table key) in order, and how many times
`gdb_item.delete` was invoked. -/
structure UpdateRunState where
  summary : ProcessSummary
  has_errors : Bool
  hash_writes : List (String × String)
  gdb_delete_calls : Nat

/-- The zero-features error message from `update_feature_services`. -/
def zeroFeaturesMessage (table : String) : String :=
  "Target service " ++ table
    ++ " has 0 features after append - this may indicate a data loss issue"

/-- Embedding of one iteration of the `for table in tables` loop of
`agol.update_feature_services`. -/
def processTable (env : UpdateEnv) (st : UpdateRunState) (table : String) :
    UpdateRunState :=
  match env.outcome table with
  | .itemMissing =>
    { st with
      has_errors := true
      summary := st.summary.add_table_error table "update"
        "No entry in AGOLItems with this table name" }
  | .appendReturnedFalse =>
    { st with
      has_errors := true
      summary := st.summary.add_table_error table "update" "Failed to append new data" }
  | .raised message =>
    { st with
      has_errors := true
      summary := st.summary.add_table_error table "update" message }
  | .succeeded post_append_count =>
    let summary1 :=
      if 0 ≤ post_append_count then
        if post_append_count = 0 then
          st.summary.add_table_error table "zero_features" (zeroFeaturesMessage table)
        else
          let source_count := pyGetIntD env.source_counts table (-1)
          if 0 ≤ source_count ∧ source_count ≠ post_append_count then
            st.summary.add_feature_count_mismatch table source_count post_append_count
          else st.summary
      else st.summary
    let summary2 := summary1.add_table_updated table (env.item_id table)
    { st with
      summary := summary2
      hash_writes := st.hash_writes ++ [(pyLower table, env.current_hashes table)] }

/-- Embedding of `agol.update_feature_services`: process every table,
then delete the temporary FGDB item only when no error occurred. -/
def update_feature_services (env : UpdateEnv) (tables : List String) :
    UpdateRunState :=
  let st := tables.foldl (processTable env)
    { summary := {}, has_errors := false, hash_writes := [], gdb_delete_calls := 0 }
  if !st.has_errors then { st with gdb_delete_calls := st.gdb_delete_calls + 1 } else st

/-- A dataset fails (in the sense of the per-dataset `Failed` state, as
opposed to the `Flagged(zero|mismatch)` findings) when its item is
missing, the append returns a falsy signal, or the loop body raises. -/
def datasetFailed : TableOutcome → Bool
  | .succeeded _ => false
  | _ => true

/-- The regex class `\s` / Python whitespace, over ASCII. -/
def isPySpace (c : Char) : Bool :=
  c = ' ' || c = '\t' || c = '\n' || c = '\r' || c = '\x0b' || c = '\x0c'

/-- Python `str.lstrip()` on a character list. -/
def lstripChars (l : List Char) : List Char :=
  l.dropWhile isPySpace

/-- Python `str.rstrip()` on a character list. -/
def rstripChars (l : List Char) : List Char :=
  (l.reverse.dropWhile isPySpace).reverse

/-- Python `str.strip()` on a character list. -/
def stripChars (l : List Char) : List Char :=
  rstripChars (lstripChars l)

/-- OGR field types used by `domains.create_coded_value_domain`
(`OFTString`, `OFTInteger`, `OFTReal`, `OFTDate`). -/
inductive OGRFieldType
  | OFTString
  | OFTInteger
  | OFTReal
  | OFTDate
  deriving DecidableEq, Repr

/-- The `field_type_map` lookup of `create_coded_value_domain`, with the
dictionary `.get` default of `OFTString`. -/
def field_type_map (esri_field_type : String) : OGRFieldType :=
  if esri_field_type = "esriFieldTypeString" then .OFTString
  else if esri_field_type = "esriFieldTypeInteger" then .OFTInteger
  else if esri_field_type = "esriFieldTypeSmallInteger" then .OFTInteger
  else if esri_field_type = "esriFieldTypeDouble" then .OFTReal
  else if esri_field_type = "esriFieldTypeSingle" then .OFTReal
  else if esri_field_type = "esriFieldTypeDate" then .OFTDate
  else if esri_field_type = "esriFieldTypeGUID" then .OFTString
  else .OFTString

/-- Value of the digit run `ds` in base 10. -/
def digitsToNat (ds : List Char) : Nat :=
  ds.foldl (fun n c => n * 10 + (c.toNat - 48)) 0

/-- Sign handling shared by the numeric parsers: a leading `-` or `+`. -/
def parseSign : List Char → Bool × List Char
  | '-' :: rest => (true, rest)
  | '+' :: rest => (false, rest)
  | l => (false, l)

/-- Model of Python `int(str)`: strip whitespace, optional sign, a
non-empty digit run.  (Underscore digit separators are not modelled; no
code value in this repository uses them.) -/
def pyParseInt (s : String) : Option Int :=
  let body := stripChars s.data
  let (neg, ds) := parseSign body
  if ds ≠ [] ∧ ds.all Char.isDigit then
    some (if neg then -(digitsToNat ds : Int) else (digitsToNat ds : Int))
  else none

/-- A Python float value: finite (exact rational model of the parsed
literal), signed infinity, or NaN. -/
inductive PyFloat
  | finite (q : Rat)
  | infinite (neg : Bool)
  | nan
  deriving DecidableEq

/-- Split a character list at the first occurrence of `sep`; the second
component is `none` when `sep` does not occur. -/
def splitFirst (sep : Char) : List Char → List Char × Option (List Char)
  | [] => ([], none)
  | c :: rest =>
    if c = sep then ([], some rest)
    else
      let r := splitFirst sep rest
      (c :: r.1, r.2)

/-- Model of Python `float(str)`: strip whitespace, optional sign, then
`inf`/`infinity`/`nan` (case-insensitive) or a decimal literal
`digits [. digits] [e [sign] digits]` with at least one mantissa digit.
(Underscore digit separators are not modelled.) -/
def pyParseFloat (s : String) : Option PyFloat :=
  let cs := (stripChars s.data).map pyLowerChar
  let (neg, body) := parseSign cs
  if body = "inf".data ∨ body = "infinity".data then some (.infinite neg)
  else if body = "nan".data then some .nan
  else
    let me := splitFirst 'e' body
    let ifr := splitFirst '.' me.1
    let ip := ifr.1
    let fp := (ifr.2).getD []
    if ip.all Char.isDigit ∧ fp.all Char.isDigit ∧ (ip ≠ [] ∨ fp ≠ []) then
      match me.2 with
      | none =>
        let mantissa : Rat := (digitsToNat ip : Rat) + (digitsToNat fp : Rat) / (10 : Rat) ^ fp.length
        some (.finite (if neg then -mantissa else mantissa))
      | some ex =>
        let (eneg, eds) := parseSign ex
        if eds ≠ [] ∧ eds.all Char.isDigit then
          let expValue : Int :=
            if eneg then -(digitsToNat eds : Int) else (digitsToNat eds : Int)
          let mantissa : Rat := (digitsToNat ip : Rat) + (digitsToNat fp : Rat) / (10 : Rat) ^ fp.length
          some (.finite ((if neg then -mantissa else mantissa) * (10 : Rat) ^ expValue))
        else none
    else none

/-- A Python value as used for domain codes: int, float or string. -/
inductive PyVal
  | intVal (n : Int)
  | floatVal (f : PyFloat)
  | strVal (s : String)
  deriving DecidableEq

/-- Python `int(code)` as a fallible call (raising `ValueError` on an
unparsable string), for the `try/except ValueError` in
`create_coded_value_domain`. -/
def pyIntOf (code : String) : Except Unit Int :=
  match pyParseInt code with
  | some n => .ok n
  | none => .error ()

/-- Python `float(code)` as a fallible call. -/
def pyFloatOf (code : String) : Except Unit PyFloat :=
  match pyParseFloat code with
  | some f => .ok f
  | none => .error ()

/-- The per-code conversion of `create_coded_value_domain`: integer types
run `int(code) if code else 0` catching `ValueError` to 0; floating types
run `float(code) if code else 0.0` catching `ValueError` to 0.0; any
other type keeps the code as a string. -/
def convertCode (t : OGRFieldType) (code : String) : PyVal :=
  match t with
  | .OFTInteger =>
    match (if code ≠ "" then pyIntOf code else .ok 0) with
    | .ok n => .intVal n
    | .error _ => .intVal 0
  | .OFTReal =>
    match (if code ≠ "" then pyFloatOf code else .ok (.finite 0)) with
    | .ok f => .floatVal f
    | .error _ => .floatVal (.finite 0)
  | _ => .strVal code

/-- Python `d[k] = v` on an insertion-ordered dictionary modelled as an
association list: overwrite in place or append. -/
def pyDictInsert (m : List (PyVal × String)) (k : PyVal) (v : String) :
    List (PyVal × String) :=
  if m.any (fun p => p.1 = k) then m.map (fun p => if p.1 = k then (k, v) else p)
  else m ++ [(k, v)]

/-- The `coded_values` dictionary built by `create_coded_value_domain`
from the parsed (code, name) pairs and the declared Esri field type. -/
def create_coded_values (esri_field_type : String) (pairs : List (String × String)) :
    List (PyVal × String) :=
  pairs.foldl
    (fun acc cv => pyDictInsert acc (convertCode (field_type_map esri_field_type) cv.1) cv.2)
    []

/-- The regex substitution `re.sub(r"\s+", " ", ...)`: every maximal run
of whitespace becomes a single space. -/
def collapseWS : List Char → List Char
  | [] => []
  | c :: rest =>
    if isPySpace c then ' ' :: collapseWS (rest.dropWhile isPySpace)
    else c :: collapseWS rest
termination_by l => l.length
decreasing_by
  all_goals simp_wf
  all_goals exact Nat.lt_succ_of_le ((List.dropWhile_sublist _).length_le)

/-- Python `str.replace(old, new, 1)` for an empty replacement: delete
the first occurrence of `pat`. -/
def replaceFirstWithEmpty : List Char → List Char → List Char
  | [], _ => []
  | c :: rest, pat =>
    if pat.isPrefixOf (c :: rest) then (c :: rest).drop pat.length
    else c :: replaceFirstWithEmpty rest pat

/-- Python `str.replace(a, b)` for a single-character pattern. -/
def pyReplaceChar (l : List Char) (a b : Char) : List Char :=
  l.map (fun c => if c = a then b else c)

/-- Embedding of `utils.get_service_from_title` over character lists:
`None` passes through; a title whose lower-cased stripped form is "utah"
(or "utah ", which is unreachable) raises `ValueError`; otherwise the
title is lower-cased, a leading "utah " is removed (first occurrence
only, guarded by `startswith`), whitespace runs are collapsed to single
spaces, the result is stripped and spaces become underscores. -/
def get_service_from_title (title : Option (List Char)) :
    Except String (Option (List Char)) :=
  match title with
  | none => .ok none
  | some t =>
    if stripChars (t.map pyLowerChar) = "utah".data
        ∨ stripChars (t.map pyLowerChar) = "utah ".data then
      .error ("Title " ++ String.mk t ++ " would result in empty service name")
    else
      let new_title := t.map pyLowerChar
      let new_title :=
        if ("utah ").data.isPrefixOf new_title then
          replaceFirstWithEmpty new_title ("utah ").data
        else new_title
      let new_title := stripChars (collapseWS new_title)
      .ok (some (pyReplaceChar new_title ' ' '_'))

/-- Split into maximal whitespace-free words, discarding the whitespace. -/
def splitWS : List Char → List (List Char)
  | [] => []
  | c :: rest =>
    if isPySpace c then splitWS rest
    else
      (c :: rest.takeWhile (fun d => !isPySpace d))
        :: splitWS (rest.dropWhile (fun d => !isPySpace d))
termination_by l => l.length
decreasing_by
  all_goals simp_wf
  all_goals exact Nat.lt_succ_of_le ((List.dropWhile_sublist _).length_le)

/-- Join words with single spaces. -/
def joinSpace : List (List Char) → List Char
  | [] => []
  | [w] => w
  | w :: ws => w ++ ' ' :: joinSpace ws

/-- Join words with single underscores. -/
def joinUnderscore : List (List Char) → List Char
  | [] => []
  | [w] => w
  | w :: ws => w ++ '_' :: joinUnderscore ws

/-- Remove one leading "utah " token, as the claim describes it. -/
def removeLeadingUtah (l : List Char) : List Char :=
  if ("utah ").data.isPrefixOf l then l.drop 5 else l

/-- The service name as the claim words it (for comparison with the
embedding of the source): the lower-cased title with a leading "utah "
token removed at most once and runs of whitespace collapsed to single
underscores. -/
def specServiceName (t : List Char) : List Char :=
  joinUnderscore (splitWS (removeLeadingUtah (t.map pyLowerChar)))

theorem pyGet_mem {m : List (String × String)} {k v}
    (h : pyGet m k = some v) : (k, v) ∈ m := by
  simp only [pyGet, Option.map_eq_some'] at h
  obtain ⟨p, hfind, hv⟩ := h
  have hmem := List.mem_of_find?_eq_some hfind
  have hk : p.1 = k := by simpa using List.find?_some hfind
  have : p = (k, v) := by
    cases p
    simp_all
  rwa [this] at hmem

theorem pyContains_eq_isSome (m : List (String × String)) (k : String) :
    pyContains m k = (pyGet m k).isSome := by
  induction m with
  | nil => rfl
  | cons p rest ih =>
    by_cases h : p.1 == k
    · simp [pyContains, pyGet, List.find?, h]
    · have hg : pyGet (p :: rest) k = pyGet rest k := by
        simp [pyGet, List.find?, h]
      simp only [pyContains, List.any_cons, h, Bool.false_or, hg]
      exact ih

theorem det_pred_iff (stored : List (String × String)) (p : String × String) :
    ((!(pyContains stored p.1) || pyGet stored p.1 != some p.2) = true) ↔
      pyGet stored p.1 ≠ some p.2 := by
  rw [pyContains_eq_isSome]
  cases h : pyGet stored p.1 <;> simp [h]

theorem pyGet_eq_some_of_mem_nodup {m : List (String × String)} {k v}
    (hnd : (m.map Prod.fst).Nodup) (hmem : (k, v) ∈ m) : pyGet m k = some v := by
  induction m with
  | nil => cases hmem
  | cons p rest ih =>
    simp only [List.map_cons, List.nodup_cons, List.mem_map] at hnd
    rcases List.mem_cons.mp hmem with h | h
    · subst h
      simp [pyGet, List.find?]
    · have hne : p.1 ≠ k := by
        intro hk
        exact hnd.1 ⟨(k, v), h, by simpa using hk.symm⟩
      simp only [pyGet, List.find?]
      have : (p.1 == k) = false := by simpa using hne
      rw [this]
      exact ih hnd.2 h

/-- C5: `determine_updated_tables` returns exactly the dataset names in
`current` that are absent from `stored` or mapped to a different hash;
with `stored = current` (well-formed, duplicate-free keys) the result is
empty, and with an empty `current` map the result is empty for every
`stored`. -/
theorem determine_updated_tables_spec (stored current : List (String × String))
    (hnd : (current.map Prod.fst).Nodup) :
    (∀ d, d ∈ determine_updated_tables stored current ↔
        ∃ v, pyGet current d = some v ∧
          (pyGet stored d = none ∨ pyGet stored d ≠ some v))
    ∧ determine_updated_tables current current = []
    ∧ determine_updated_tables stored [] = [] := by
  refine ⟨?_, ?_, rfl⟩
  · intro d
    simp only [determine_updated_tables, List.mem_map, List.mem_filter]
    constructor
    · rintro ⟨⟨k, v⟩, ⟨hmem, hpred⟩, rfl⟩
      have hne := (det_pred_iff stored (k, v)).mp hpred
      exact ⟨v, pyGet_eq_some_of_mem_nodup hnd hmem, Or.inr hne⟩
    · rintro ⟨v, hget, hne⟩
      have hne' : pyGet stored d ≠ some v := by
        rcases hne with h | h
        · rw [h]
          simp
        · exact h
      exact ⟨(d, v), ⟨pyGet_mem hget, (det_pred_iff stored (d, v)).mpr hne'⟩, rfl⟩
  · have hfil : current.filter
        (fun p => !(pyContains current p.1) || pyGet current p.1 != some p.2) = [] := by
      rw [List.filter_eq_nil_iff]
      intro p hp
      have hget : pyGet current p.1 = some p.2 :=
        pyGet_eq_some_of_mem_nodup hnd (by cases p; exact hp)
      simp [hget, pyContains_eq_isSome]
    simp [determine_updated_tables, hfil]

/-- C5 witness: running change detection with the stored map equal to the
current map yields no updated tables. -/
theorem determine_updated_tables_spec_witness :
    determine_updated_tables [("sgid.society.cemeteries", "h1"), ("sgid.transportation.roads", "h2")]
      [("sgid.society.cemeteries", "h1"), ("sgid.transportation.roads", "h2")] = [] :=
  (determine_updated_tables_spec
    [("sgid.society.cemeteries", "h1"), ("sgid.transportation.roads", "h2")]
    [("sgid.society.cemeteries", "h1"), ("sgid.transportation.roads", "h2")]
    (by decide)).2.1

/-- C6: geometry-option translation is a pure function mapping the
polygon classification to MULTIPOLYGON, polyline to MULTILINESTRING, the
non-spatial classification (STAND ALONE) to NONE and point to POINT; every
other classification raises an unknown-geometry-type error. -/
theorem get_geometry_option_spec (g : String) :
    (pyUpper g = "POLYGON" → _get_geometry_option g = .ok "MULTIPOLYGON")
    ∧ (pyUpper g = "POLYLINE" → _get_geometry_option g = .ok "MULTILINESTRING")
    ∧ (pyUpper g = "STAND ALONE" → _get_geometry_option g = .ok "NONE")
    ∧ (pyUpper g = "POINT" → _get_geometry_option g = .ok "POINT")
    ∧ (pyUpper g ≠ "POLYGON" → pyUpper g ≠ "POLYLINE" → pyUpper g ≠ "STAND ALONE" →
        pyUpper g ≠ "POINT" →
        _get_geometry_option g = .error ("Unknown geometry type: " ++ g)) := by
  refine ⟨?_, ?_, ?_, ?_, ?_⟩ <;> intro h <;> simp [_get_geometry_option, h]
  intro h2 h3 h4
  simp [h2, h3, h4]

/-- C6 witness: the translation evaluated at the four valid
classifications (lower-case inputs) and at an unknown classification. -/
theorem get_geometry_option_spec_witness :
    _get_geometry_option "polygon" = .ok "MULTIPOLYGON"
    ∧ _get_geometry_option "polyline" = .ok "MULTILINESTRING"
    ∧ _get_geometry_option "stand alone" = .ok "NONE"
    ∧ _get_geometry_option "point" = .ok "POINT"
    ∧ _get_geometry_option "ellipse" = .error "Unknown geometry type: ellipse" :=
  ⟨(get_geometry_option_spec "polygon").1 (by decide),
   (get_geometry_option_spec "polyline").2.1 (by decide),
   (get_geometry_option_spec "stand alone").2.2.1 (by decide),
   (get_geometry_option_spec "point").2.2.2.1 (by decide),
   (get_geometry_option_spec "ellipse").2.2.2.2 (by decide) (by decide) (by decide) (by decide)⟩

theorem add_table_error_lists (s : ProcessSummary) (t ty msg : String) :
    (s.add_table_error t ty msg).tables_updated = s.tables_updated
    ∧ (s.add_table_error t ty msg).tables_published = s.tables_published
    ∧ (s.add_table_error t ty msg).tables_with_errors =
        (if t ∈ s.tables_with_errors then s.tables_with_errors
         else s.tables_with_errors ++ [t]) := by
  by_cases hmem : t ∈ s.tables_with_errors <;> by_cases hu : ty = "update" <;>
    by_cases hp : ty = "publish" <;>
      simp [ProcessSummary.add_table_error, hmem, hu, hp]

theorem nodup_append_singleton {l : List String} {a : String}
    (h : l.Nodup) (ha : a ∉ l) : (l ++ [a]).Nodup := by
  simp [List.nodup_append, h, ha]

theorem applySummaryOp_nodup (s : ProcessSummary) (op : SummaryOp)
    (h1 : s.tables_updated.Nodup) (h2 : s.tables_published.Nodup)
    (h3 : s.tables_with_errors.Nodup) :
    (applySummaryOp s op).tables_updated.Nodup
    ∧ (applySummaryOp s op).tables_published.Nodup
    ∧ (applySummaryOp s op).tables_with_errors.Nodup := by
  cases op with
  | updated t i =>
    simp only [applySummaryOp, ProcessSummary.add_table_updated]
    split
    · exact ⟨h1, h2, h3⟩
    · exact ⟨nodup_append_singleton h1 (by assumption), h2, h3⟩
  | published t i =>
    simp only [applySummaryOp, ProcessSummary.add_table_published]
    split
    · exact ⟨h1, h2, h3⟩
    · exact ⟨h1, nodup_append_singleton h2 (by assumption), h3⟩
  | tableError t ty msg =>
    obtain ⟨e1, e2, e3⟩ := add_table_error_lists s t ty msg
    simp only [applySummaryOp]
    rw [e1, e2, e3]
    refine ⟨h1, h2, ?_⟩
    split
    · exact h3
    · exact nodup_append_singleton h3 (by assumption)

theorem foldl_summary_nodup (ops : List SummaryOp) :
    ∀ s : ProcessSummary, s.tables_updated.Nodup → s.tables_published.Nodup →
      s.tables_with_errors.Nodup →
      (ops.foldl applySummaryOp s).tables_updated.Nodup
      ∧ (ops.foldl applySummaryOp s).tables_published.Nodup
      ∧ (ops.foldl applySummaryOp s).tables_with_errors.Nodup := by
  induction ops with
  | nil => intro s h1 h2 h3; exact ⟨h1, h2, h3⟩
  | cons op rest ih =>
    intro s h1 h2 h3
    obtain ⟨g1, g2, g3⟩ := applySummaryOp_nodup s op h1 h2 h3
    exact ih (applySummaryOp s op) g1 g2 g3

/-- C10: for every sequence of `add_table_updated`, `add_table_published`
and `add_table_error` calls against a fresh summary, the three table-name
lists are duplicate-free, and repeating `add_table_updated` or
`add_table_published` for an already-recorded table leaves the table and
item-id lists unchanged. -/
theorem summary_duplicate_free_spec :
    (∀ ops : List SummaryOp,
      (runSummaryOps ops).tables_updated.Nodup
      ∧ (runSummaryOps ops).tables_published.Nodup
      ∧ (runSummaryOps ops).tables_with_errors.Nodup)
    ∧ (∀ (s : ProcessSummary) (t : String) (i : Option String),
        (t ∈ s.tables_updated →
          (s.add_table_updated t i).tables_updated = s.tables_updated
          ∧ (s.add_table_updated t i).updated_item_ids = s.updated_item_ids)
        ∧ (t ∈ s.tables_published →
          (s.add_table_published t i).tables_published = s.tables_published
          ∧ (s.add_table_published t i).published_item_ids = s.published_item_ids)) := by
  constructor
  · intro ops
    exact foldl_summary_nodup ops {} (by simp) (by simp) (by simp)
  · intro s t i
    constructor
    · intro hmem
      simp [ProcessSummary.add_table_updated, hmem]
    · intro hmem
      simp [ProcessSummary.add_table_published, hmem]

/-- C10 witness: repeating `add_table_updated` for a table already in the
summary leaves the updated-table and item-id lists unchanged. -/
theorem summary_duplicate_free_spec_witness :
    (ProcessSummary.add_table_updated
        { tables_updated := ["sgid.society.cemeteries"], updated_item_ids := [some "abc"] }
        "sgid.society.cemeteries" none).tables_updated = ["sgid.society.cemeteries"]
    ∧ (ProcessSummary.add_table_updated
        { tables_updated := ["sgid.society.cemeteries"], updated_item_ids := [some "abc"] }
        "sgid.society.cemeteries" none).updated_item_ids = [some "abc"] :=
  (summary_duplicate_free_spec.2
      { tables_updated := ["sgid.society.cemeteries"], updated_item_ids := [some "abc"] }
      "sgid.society.cemeteries" none).1 (by simp)

/-- C4: with the default configuration, `retry` makes at most 4 attempts
in total (1 initial + 3 retries), waits `delay ^ attempt` seconds before
each retry (2, 4, then 8 seconds), propagates the final attempt's
exception object unchanged when every attempt raises, and returns the
succeeding attempt's value otherwise. -/
theorem retry_default_spec {ε α : Type} (outcomes : Nat → Except ε α) :
    (retryWithOutcomes outcomes).1.2 ≤ 4
    ∧ (∀ e1 e2 e3 e4, outcomes 1 = .error e1 → outcomes 2 = .error e2 →
        outcomes 3 = .error e3 → outcomes 4 = .error e4 →
        retryWithOutcomes outcomes = ((.error e4, 4), [2, 4, 8]))
    ∧ (∀ v, outcomes 1 = .ok v → retryWithOutcomes outcomes = ((.ok v, 1), []))
    ∧ (∀ e1 v, outcomes 1 = .error e1 → outcomes 2 = .ok v →
        retryWithOutcomes outcomes = ((.ok v, 2), [2]))
    ∧ (∀ e1 e2 v, outcomes 1 = .error e1 → outcomes 2 = .error e2 →
        outcomes 3 = .ok v → retryWithOutcomes outcomes = ((.ok v, 3), [2, 4]))
    ∧ (∀ e1 e2 e3 v, outcomes 1 = .error e1 → outcomes 2 = .error e2 →
        outcomes 3 = .error e3 → outcomes 4 = .ok v →
        retryWithOutcomes outcomes = ((.ok v, 4), [2, 4, 8])) := by
  refine ⟨?_, ?_, ?_, ?_, ?_, ?_⟩
  · rcases h1 : outcomes 1 with e1 | v1
    · rcases h2 : outcomes 2 with e2 | v2
      · rcases h3 : outcomes 3 with e3 | v3
        · rcases h4 : outcomes 4 with e4 | v4 <;>
            simp [retryWithOutcomes, retry, _inner_retry, countingWorker,
              RETRY_MAX_TRIES, RETRY_DELAY_TIME, h1, h2, h3, h4]
        · simp [retryWithOutcomes, retry, _inner_retry, countingWorker,
            RETRY_MAX_TRIES, RETRY_DELAY_TIME, h1, h2, h3]
      · simp [retryWithOutcomes, retry, _inner_retry, countingWorker,
          RETRY_MAX_TRIES, RETRY_DELAY_TIME, h1, h2]
    · simp [retryWithOutcomes, retry, _inner_retry, countingWorker,
        RETRY_MAX_TRIES, RETRY_DELAY_TIME, h1]
  · intro e1 e2 e3 e4 h1 h2 h3 h4
    simp [retryWithOutcomes, retry, _inner_retry, countingWorker,
      RETRY_MAX_TRIES, RETRY_DELAY_TIME, h1, h2, h3, h4]
  · intro v h1
    simp [retryWithOutcomes, retry, _inner_retry, countingWorker,
      RETRY_MAX_TRIES, RETRY_DELAY_TIME, h1]
  · intro e1 v h1 h2
    simp [retryWithOutcomes, retry, _inner_retry, countingWorker,
      RETRY_MAX_TRIES, RETRY_DELAY_TIME, h1, h2]
  · intro e1 e2 v h1 h2 h3
    simp [retryWithOutcomes, retry, _inner_retry, countingWorker,
      RETRY_MAX_TRIES, RETRY_DELAY_TIME, h1, h2, h3]
  · intro e1 e2 e3 v h1 h2 h3 h4
    simp [retryWithOutcomes, retry, _inner_retry, countingWorker,
      RETRY_MAX_TRIES, RETRY_DELAY_TIME, h1, h2, h3, h4]

/-- C4 witness: a worker that raises on its first three attempts and
succeeds on its fourth is attempted exactly 4 times with waits of 2, 4
and 8 seconds, and its value is returned. -/
theorem retry_default_spec_witness :
    retryWithOutcomes
        (fun k => if k ≤ 3 then Except.error ("boom " ++ toString k) else Except.ok 42)
      = ((.ok 42, 4), [2, 4, 8]) :=
  (retry_default_spec
      (fun k => if k ≤ 3 then Except.error ("boom " ++ toString k) else Except.ok 42)).2.2.2.2.2
    "boom 1" "boom 2" "boom 3" 42 rfl rfl rfl rfl

/-- C2: `_truncate_and_append` retries truncate and append as a single
unit: the worker truncates first (raising unless the reported status is
"Completed", without attempting the append), then appends, reading the
bool-or-tuple success signal and raising on failure; after one induced
append failure followed by a success, exactly 2 truncate calls and 2
append calls have been made (truncate is re-executed on the retry), with
a single 2-second back-off wait. -/
theorem truncate_and_append_unit_spec (env : TruncateAppendEnv)
    (ht1 : env.truncateStatus 1 = "Completed") (ht2 : env.truncateStatus 2 = "Completed")
    (ha1 : appendSuccess (env.appendResult 1) = false)
    (ha2 : appendSuccess (env.appendResult 2) = true) :
    _truncate_and_append env = ((.ok true, ⟨2, 2⟩), [2])
    ∧ (_truncate_and_append env).1.2.truncateCalls
        = (_truncate_and_append env).1.2.appendCalls
    ∧ (∀ s : TruncateAppendCalls, env.truncateStatus (s.truncateCalls + 1) ≠ "Completed" →
        _worker env s = (.error "Failed to truncate existing data in service",
          { s with truncateCalls := s.truncateCalls + 1 }))
    ∧ (∀ s : TruncateAppendCalls, env.truncateStatus (s.truncateCalls + 1) = "Completed" →
        appendSuccess (env.appendResult (s.appendCalls + 1)) = false →
        _worker env s = (.error "Append failed",
          ⟨s.truncateCalls + 1, s.appendCalls + 1⟩)) := by
  have hrun : _truncate_and_append env = ((.ok true, ⟨2, 2⟩), [2]) := by
    simp [_truncate_and_append, retry, _inner_retry, _worker,
      RETRY_MAX_TRIES, RETRY_DELAY_TIME, ht1, ht2, ha1, ha2]
  refine ⟨hrun, by rw [hrun], ?_, ?_⟩
  · intro s hst
    simp [_worker, hst]
  · intro s hst hap
    simp [_worker, hst, hap]

/-- C2 witness: a scripted remote whose first append fails and second
append succeeds, with both truncates reporting "Completed", yields a
successful combined operation with 2 truncate calls and 2 append calls. -/
theorem truncate_and_append_unit_spec_witness :
    _truncate_and_append
        { truncateStatus := fun _ => "Completed"
          appendResult := fun k => if k = 1 then .asTuple false ["Append error"] else .asBool true }
      = ((.ok true, ⟨2, 2⟩), [2]) :=
  (truncate_and_append_unit_spec
      { truncateStatus := fun _ => "Completed"
        appendResult := fun k => if k = 1 then .asTuple false ["Append error"] else .asBool true }
      rfl rfl (by decide) (by decide)).1

theorem all_not_eq_not_any {α : Type} (l : List α) (f : α → Bool) :
    (l.all fun t => !f t) = !l.any f := by
  induction l with
  | nil => rfl
  | cons a rest ih => simp [List.all_cons, List.any_cons, ih, Bool.not_or]

theorem processTable_fields (env : UpdateEnv) (st : UpdateRunState) (table : String) :
    (processTable env st table).has_errors
      = (st.has_errors || datasetFailed (env.outcome table))
    ∧ (processTable env st table).gdb_delete_calls = st.gdb_delete_calls
    ∧ (processTable env st table).hash_writes
      = st.hash_writes ++
          (if datasetFailed (env.outcome table) then []
           else [(pyLower table, env.current_hashes table)]) := by
  cases h : env.outcome table <;> simp [processTable, h, datasetFailed]

theorem foldl_update_fields (env : UpdateEnv) (tables : List String) :
    ∀ st : UpdateRunState,
      (tables.foldl (processTable env) st).has_errors
        = (st.has_errors || tables.any fun t => datasetFailed (env.outcome t))
      ∧ (tables.foldl (processTable env) st).gdb_delete_calls = st.gdb_delete_calls
      ∧ (tables.foldl (processTable env) st).hash_writes
        = st.hash_writes ++
            ((tables.filter fun t => !datasetFailed (env.outcome t)).map
              fun t => (pyLower t, env.current_hashes t)) := by
  induction tables with
  | nil => intro st; simp
  | cons table rest ih =>
    intro st
    obtain ⟨s1, s2, s3⟩ := processTable_fields env st table
    obtain ⟨r1, r2, r3⟩ := ih (processTable env st table)
    refine ⟨?_, ?_, ?_⟩
    · rw [List.foldl_cons, r1, s1, List.any_cons, Bool.or_assoc]
    · rw [List.foldl_cons, r2, s2]
    · rw [List.foldl_cons, r3, s3, List.filter_cons]
      cases hf : datasetFailed (env.outcome table) <;>
        simp [hf, List.append_assoc]

theorem update_result_characterization (env : UpdateEnv) (tables : List String) :
    (update_feature_services env tables).gdb_delete_calls
      = (if tables.any (fun t => datasetFailed (env.outcome t)) then 0 else 1)
    ∧ (update_feature_services env tables).hash_writes
      = ((tables.filter fun t => !datasetFailed (env.outcome t)).map
          fun t => (pyLower t, env.current_hashes t)) := by
  obtain ⟨he, hg, hw⟩ := foldl_update_fields env tables
    { summary := {}, has_errors := false, hash_writes := [], gdb_delete_calls := 0 }
  constructor
  · simp only [update_feature_services]
    cases hA : tables.any (fun t => datasetFailed (env.outcome t)) <;>
      simp [he, hg, hA, apply_ite]
  · simp only [update_feature_services]
    cases hA : (tables.foldl (processTable env)
        { summary := {}, has_errors := false, hash_writes := [],
          gdb_delete_calls := 0 }).has_errors <;>
      simp [hA, hw]

/-- C3: in `update_feature_services`, the temporary uploaded package item
is deleted iff zero dataset failures occurred in the batch (of any size):
with at least one failed dataset `gdb_item.delete` is never invoked, and
with no failed dataset it is invoked exactly once, after the whole batch
has been processed.  (Zero-count and count-mismatch findings on a
successful append are flagged datasets, not failed ones, and do not block
the cleanup.) -/
theorem update_cleanup_invariant_spec (env : UpdateEnv) (tables : List String) :
    (update_feature_services env tables).gdb_delete_calls
      = (if tables.all (fun t => !datasetFailed (env.outcome t)) then 1 else 0)
    ∧ ((update_feature_services env tables).gdb_delete_calls = 1 ↔
        ∀ t ∈ tables, datasetFailed (env.outcome t) = false) := by
  obtain ⟨hdel, -⟩ := update_result_characterization env tables
  constructor
  · rw [hdel, all_not_eq_not_any]
    cases hA : tables.any (fun t => datasetFailed (env.outcome t)) <;> simp [hA]
  · rw [hdel]
    cases hA : tables.any (fun t => datasetFailed (env.outcome t))
    · have hall : ∀ t ∈ tables, datasetFailed (env.outcome t) = false := by
        intro t ht
        by_contra hf
        rw [Bool.not_eq_false] at hf
        have hcontra : tables.any (fun t => datasetFailed (env.outcome t)) = true :=
          List.any_eq_true.mpr ⟨t, ht, hf⟩
        rw [hA] at hcontra
        exact Bool.false_ne_true hcontra
      simp [hA]
      exact hall
    · obtain ⟨t, ht, hf⟩ := List.any_eq_true.mp hA
      simp [hA]
      exact ⟨t, ht, hf⟩

/-- C1 counterexample: a batch with one dataset whose truncate-and-append
succeeds but whose post-append remote count is 0 (source count 100).  The
claim says the fingerprint must not be persisted for that dataset, yet the
code calls `set_table_hash` for it (while also flagging the
zero-features error). -/
theorem update_hash_persistence_counterexample :
    (update_feature_services
        { outcome := fun _ => .succeeded 0
          item_id := fun _ => some "existing-item"
          current_hashes := fun _ => "new-hash"
          source_counts := [("sgid.society.cemeteries", 100)] }
        ["sgid.society.cemeteries"]).hash_writes
      = [("sgid.society.cemeteries", "new-hash")]
    ∧ "sgid.society.cemeteries" ∈
        (update_feature_services
          { outcome := fun _ => .succeeded 0
            item_id := fun _ => some "existing-item"
            current_hashes := fun _ => "new-hash"
            source_counts := [("sgid.society.cemeteries", 100)] }
          ["sgid.society.cemeteries"]).summary.tables_with_errors := by
  constructor <;> decide

/-- C1 (amended): `update_feature_services` persists the new content
fingerprint (a `set_table_hash` call with the lower-cased table name and
its current hash) for exactly the datasets whose truncate-and-append
reported success without raising — regardless of whether the post-append
count was zero or mismatched the source count. -/
theorem update_hash_persistence_amended (env : UpdateEnv) (tables : List String) :
    (update_feature_services env tables).hash_writes
      = ((tables.filter fun t => !datasetFailed (env.outcome t)).map
          fun t => (pyLower t, env.current_hashes t)) :=
  (update_result_characterization env tables).2

theorem add_table_error_mismatches (s : ProcessSummary) (t ty m : String) :
    (s.add_table_error t ty m).feature_count_mismatches = s.feature_count_mismatches := by
  by_cases hmem : t ∈ s.tables_with_errors <;> by_cases hu : ty = "update" <;>
    by_cases hp : ty = "publish" <;>
      simp [ProcessSummary.add_table_error, hmem, hu, hp]

theorem add_feature_count_mismatch_messages (s : ProcessSummary) (t : String)
    (src fin : Int) :
    (s.add_feature_count_mismatch t src fin).feature_count_mismatches
      = s.feature_count_mismatches
          ++ [t ++ ": Source count " ++ toString src ++ " != Final count " ++ toString fin] := by
  simp [ProcessSummary.add_feature_count_mismatch, add_table_error_mismatches]

theorem add_table_updated_other_fields (s : ProcessSummary) (t : String)
    (i : Option String) :
    (s.add_table_updated t i).tables_with_errors = s.tables_with_errors
    ∧ (s.add_table_updated t i).feature_count_mismatches = s.feature_count_mismatches := by
  simp only [ProcessSummary.add_table_updated]
  split <;> simp

theorem mem_add_table_updated_self (s : ProcessSummary) (t : String) (i : Option String) :
    t ∈ (s.add_table_updated t i).tables_updated := by
  simp only [ProcessSummary.add_table_updated]
  split
  · assumption
  · simp

theorem mem_add_table_error_self (s : ProcessSummary) (t ty m : String) :
    t ∈ (s.add_table_error t ty m).tables_with_errors := by
  obtain ⟨-, -, e3⟩ := add_table_error_lists s t ty m
  rw [e3]
  split
  · assumption
  · simp

/-- C7: in the `update_feature_services` loop, for a dataset whose
truncate-and-append succeeded and whose post-append remote count was
obtained (count ≥ 0): when the count is zero, a zero-features error is
flagged for the dataset in the run summary even though the dataset is
still recorded as updated; when the count is non-zero, a source count is
available (≥ 0) and differs from the post-append count, a feature-count
mismatch for that dataset is appended to the summary. -/
theorem update_post_count_checks_spec (env : UpdateEnv) (st : UpdateRunState)
    (table : String) (post : Int)
    (ho : env.outcome table = .succeeded post) (hpost : 0 ≤ post) :
    (post = 0 →
      table ∈ (processTable env st table).summary.tables_with_errors
      ∧ table ∈ (processTable env st table).summary.tables_updated)
    ∧ (post ≠ 0 → 0 ≤ pyGetIntD env.source_counts table (-1) →
        pyGetIntD env.source_counts table (-1) ≠ post →
        (processTable env st table).summary.feature_count_mismatches
          = st.summary.feature_count_mismatches
              ++ [table ++ ": Source count "
                  ++ toString (pyGetIntD env.source_counts table (-1))
                  ++ " != Final count " ++ toString post]) := by
  constructor
  · intro h0
    subst h0
    simp only [processTable, ho, le_refl, if_true, if_pos rfl]
    constructor
    · rw [(add_table_updated_other_fields _ _ _).1]
      exact mem_add_table_error_self _ _ _ _
    · exact mem_add_table_updated_self _ _ _
  · intro hne hsrc hneq
    simp only [processTable, ho]
    rw [if_pos hpost, if_neg hne, if_pos ⟨hsrc, hneq⟩,
      (add_table_updated_other_fields _ _ _).2, add_feature_count_mismatch_messages]

/-- C7 witness: a dataset with post-append count 0 is flagged in the
error list while still being recorded as updated, and a dataset with
source count 100 and post-append count 97 gets a mismatch message. -/
theorem update_post_count_checks_spec_witness :
    ("sgid.society.cemeteries" ∈
        (processTable
          { outcome := fun _ => .succeeded 0
            item_id := fun _ => some "item0"
            current_hashes := fun _ => "h"
            source_counts := [("sgid.society.cemeteries", 100)] }
          { summary := {}, has_errors := false, hash_writes := [], gdb_delete_calls := 0 }
          "sgid.society.cemeteries").summary.tables_with_errors
      ∧ "sgid.society.cemeteries" ∈
        (processTable
          { outcome := fun _ => .succeeded 0
            item_id := fun _ => some "item0"
            current_hashes := fun _ => "h"
            source_counts := [("sgid.society.cemeteries", 100)] }
          { summary := {}, has_errors := false, hash_writes := [], gdb_delete_calls := 0 }
          "sgid.society.cemeteries").summary.tables_updated)
    ∧ (processTable
          { outcome := fun _ => .succeeded 97
            item_id := fun _ => some "item0"
            current_hashes := fun _ => "h"
            source_counts := [("sgid.society.cemeteries", 100)] }
          { summary := {}, has_errors := false, hash_writes := [], gdb_delete_calls := 0 }
          "sgid.society.cemeteries").summary.feature_count_mismatches
        = ["sgid.society.cemeteries" ++ ": Source count " ++ toString (100 : Int)
            ++ " != Final count " ++ toString (97 : Int)] :=
  ⟨(update_post_count_checks_spec
      { outcome := fun _ => .succeeded 0
        item_id := fun _ => some "item0"
        current_hashes := fun _ => "h"
        source_counts := [("sgid.society.cemeteries", 100)] }
      { summary := {}, has_errors := false, hash_writes := [], gdb_delete_calls := 0 }
      "sgid.society.cemeteries" 0 rfl (by decide)).1 rfl,
   (update_post_count_checks_spec
      { outcome := fun _ => .succeeded 97
        item_id := fun _ => some "item0"
        current_hashes := fun _ => "h"
        source_counts := [("sgid.society.cemeteries", 100)] }
      { summary := {}, has_errors := false, hash_writes := [], gdb_delete_calls := 0 }
      "sgid.society.cemeteries" 97 rfl (by decide)).2 (by decide) (by decide) (by decide)⟩

/-- C8: code-value coercion in `create_coded_value_domain` never raises:
with a small/standard integer declared type every unparsable code string
coerces to 0 (the `ValueError` is caught), with a single/double declared
type every unparsable code coerces to 0.0, and with a string or GUID
declared type the code is kept as a string. -/
theorem coded_value_coercion_spec (esri code : String) :
    ((esri = "esriFieldTypeInteger" ∨ esri = "esriFieldTypeSmallInteger") →
      pyParseInt code = none → convertCode (field_type_map esri) code = .intVal 0)
    ∧ ((esri = "esriFieldTypeDouble" ∨ esri = "esriFieldTypeSingle") →
      pyParseFloat code = none → convertCode (field_type_map esri) code = .floatVal (.finite 0))
    ∧ ((esri = "esriFieldTypeString" ∨ esri = "esriFieldTypeGUID") →
      convertCode (field_type_map esri) code = .strVal code) := by
  have hI : field_type_map "esriFieldTypeInteger" = .OFTInteger := rfl
  have hSI : field_type_map "esriFieldTypeSmallInteger" = .OFTInteger := rfl
  have hD : field_type_map "esriFieldTypeDouble" = .OFTReal := rfl
  have hS : field_type_map "esriFieldTypeSingle" = .OFTReal := rfl
  have hStr : field_type_map "esriFieldTypeString" = .OFTString := rfl
  have hG : field_type_map "esriFieldTypeGUID" = .OFTString := rfl
  refine ⟨?_, ?_, ?_⟩
  · rintro (rfl | rfl) hp <;> [rw [hI]; rw [hSI]] <;> by_cases hc : code = "" <;>
      simp [convertCode, pyIntOf, hp, hc]
  · rintro (rfl | rfl) hp <;> [rw [hD]; rw [hS]] <;> by_cases hc : code = "" <;>
      simp [convertCode, pyFloatOf, hp, hc]
  · rintro (rfl | rfl) <;> [rw [hStr]; rw [hG]] <;> simp [convertCode]

/-- C8 witness: the unparsable integer code "12a" coerces to 0, the
unparsable floating code "1.2.3" coerces to 0.0, and a GUID-typed code is
kept as a string. -/
theorem coded_value_coercion_spec_witness :
    convertCode (field_type_map "esriFieldTypeInteger") "12a" = .intVal 0
    ∧ convertCode (field_type_map "esriFieldTypeDouble") "1.2.3" = .floatVal (.finite 0)
    ∧ convertCode (field_type_map "esriFieldTypeGUID") "a14ceaf1" = .strVal "a14ceaf1" :=
  ⟨(coded_value_coercion_spec "esriFieldTypeInteger" "12a").1 (Or.inl rfl) (by decide),
   (coded_value_coercion_spec "esriFieldTypeDouble" "1.2.3").2.1 (Or.inl rfl) (by decide),
   (coded_value_coercion_spec "esriFieldTypeGUID" "a14ceaf1").2.2 (Or.inr rfl)⟩

theorem dropWhile_head_false {p : Char → Bool} :
    ∀ {l : List Char} {c : Char} {t : List Char}, l.dropWhile p = c :: t → p c = false := by
  intro l
  induction l with
  | nil => intro c t h; cases h
  | cons a l' ih =>
    intro c t h
    by_cases ha : p a
    · rw [List.dropWhile_cons_of_pos ha] at h
      exact ih h
    · rw [List.dropWhile_cons_of_neg ha] at h
      cases h
      simpa using ha

theorem dropWhile_eq_self_of_head_false {p : Char → Bool} {l : List Char}
    (h : ∀ c ∈ l, p c = false) : l.dropWhile p = l := by
  cases l with
  | nil => rfl
  | cons a l' =>
    exact List.dropWhile_cons_of_neg (by simp [h a (by simp)])

theorem collapseWS_cons_nonspace {c : Char} (l : List Char) (h : isPySpace c = false) :
    collapseWS (c :: l) = c :: collapseWS l := by
  rw [collapseWS]
  simp [h]

theorem collapseWS_cons_space {c : Char} (l : List Char) (h : isPySpace c = true) :
    collapseWS (c :: l) = ' ' :: collapseWS (l.dropWhile isPySpace) := by
  rw [collapseWS]
  simp [h]

theorem collapseWS_append_nonws {w : List Char} (t : List Char)
    (h : ∀ c ∈ w, isPySpace c = false) :
    collapseWS (w ++ t) = w ++ collapseWS t := by
  induction w with
  | nil => rfl
  | cons a w' ih =>
    rw [List.cons_append, collapseWS_cons_nonspace _ (h a (by simp)),
      ih (fun c hc => h c (by simp [hc]))]
    rfl

theorem rstrip_eq_self_of_nonws {l : List Char} (h : ∀ c ∈ l, isPySpace c = false) :
    rstripChars l = l := by
  rw [rstripChars, dropWhile_eq_self_of_head_false (fun c hc => h c (by simpa using hc)),
    List.reverse_reverse]

theorem rstrip_append_ws {l : List Char} {x : Char} (hx : isPySpace x = true) :
    rstripChars (l ++ [x]) = rstripChars l := by
  simp only [rstripChars, List.reverse_append, List.reverse_cons, List.reverse_nil,
    List.nil_append, List.singleton_append, List.dropWhile_cons_of_pos hx]

theorem rstrip_append_of_ne_nil {b : List Char} (a : List Char)
    (hb : rstripChars b ≠ []) : rstripChars (a ++ b) = a ++ rstripChars b := by
  have hdb : b.reverse.dropWhile isPySpace ≠ [] := by
    intro h
    apply hb
    rw [rstripChars, h, List.reverse_nil]
  rw [rstripChars, List.reverse_append, List.dropWhile_append,
    if_neg (by simpa using hdb), List.reverse_append, List.reverse_reverse]
  rfl

theorem rstrip_cons_nonws_ne_nil {c : Char} {l : List Char}
    (hc : isPySpace c = false) : rstripChars (c :: l) ≠ [] := by
  by_cases hr : rstripChars l = []
  · have hdl : l.reverse.dropWhile isPySpace = [] := by
      have := hr
      rw [rstripChars] at this
      simpa using congrArg List.reverse this
    have hone : List.dropWhile isPySpace [c] = [c] :=
      List.dropWhile_cons_of_neg (by simp [hc])
    have : rstripChars (c :: l) = [c] := by
      have hrc : (c :: l).reverse = l.reverse ++ [c] := by simp
      rw [rstripChars, hrc, List.dropWhile_append, hdl]
      simp [hone]
    rw [this]
    simp
  · have : rstripChars (c :: l) = c :: rstripChars l := by
      have : (c :: l) = [c] ++ l := rfl
      rw [this, rstrip_append_of_ne_nil [c] hr]
      rfl
    rw [this]
    simp

theorem rstrip_last_not_space {l m : List Char} {c : Char}
    (h : rstripChars l = m ++ [c]) : isPySpace c = false := by
  have hrev : l.reverse.dropWhile isPySpace = c :: m.reverse := by
    have := congrArg List.reverse h
    rw [rstripChars, List.reverse_reverse] at this
    simpa using this
  exact dropWhile_head_false hrev

theorem lstrip_collapse (s : List Char) :
    lstripChars (collapseWS s) = collapseWS (lstripChars s) := by
  cases s with
  | nil => simp [collapseWS, lstripChars]
  | cons c rest =>
    by_cases hc : isPySpace c
    · rw [collapseWS_cons_space rest hc]
      rw [lstripChars, List.dropWhile_cons_of_pos (by decide)]
      rw [lstripChars, List.dropWhile_cons_of_pos hc]
      cases hr : rest.dropWhile isPySpace with
      | nil => simp [collapseWS]
      | cons d u =>
        have hd : isPySpace d = false := dropWhile_head_false hr
        rw [collapseWS_cons_nonspace u hd]
        exact List.dropWhile_cons_of_neg (by simp [hd])
    · have hc' : isPySpace c = false := by simpa using hc
      rw [collapseWS_cons_nonspace rest hc',
        lstripChars, List.dropWhile_cons_of_neg (by simp [hc']),
        lstripChars, List.dropWhile_cons_of_neg (by simp [hc']),
        collapseWS_cons_nonspace rest hc']

theorem splitWS_cons_space {c : Char} (l : List Char) (h : isPySpace c = true) :
    splitWS (c :: l) = splitWS l := by
  rw [splitWS]
  simp [h]

theorem splitWS_cons_nonspace {c : Char} (l : List Char) (h : isPySpace c = false) :
    splitWS (c :: l) =
      (c :: l.takeWhile (fun d => !isPySpace d))
        :: splitWS (l.dropWhile (fun d => !isPySpace d)) := by
  rw [splitWS]
  simp [h]

theorem splitWS_dropWhile (s : List Char) :
    splitWS (s.dropWhile isPySpace) = splitWS s := by
  induction s with
  | nil => rfl
  | cons c rest ih =>
    by_cases hc : isPySpace c
    · rw [List.dropWhile_cons_of_pos hc, splitWS_cons_space rest hc, ih]
    · rw [List.dropWhile_cons_of_neg hc]

theorem splitWS_no_space_aux :
    ∀ (n : Nat) (s : List Char), s.length ≤ n →
      ∀ w ∈ splitWS s, ∀ c ∈ w, isPySpace c = false := by
  intro n
  induction n with
  | zero =>
    intro s hs
    have : s = [] := List.eq_nil_of_length_eq_zero (Nat.le_zero.mp hs)
    subst this
    intro w hw
    rw [show splitWS [] = [] from by rw [splitWS]] at hw
    cases hw
  | succ n ih =>
    intro s hs
    cases s with
    | nil =>
      intro w hw
      rw [show splitWS [] = [] from by rw [splitWS]] at hw
      cases hw
    | cons c rest =>
      by_cases hc : isPySpace c
      · rw [splitWS_cons_space rest hc]
        exact ih rest (by simpa using Nat.le_of_succ_le_succ hs)
      · have hc' : isPySpace c = false := by simpa using hc
        rw [splitWS_cons_nonspace rest hc']
        intro w hw
        rcases List.mem_cons.mp hw with rfl | hw'
        · intro d hd
          rcases List.mem_cons.mp hd with rfl | hd'
          · exact hc'
          · simpa using List.mem_takeWhile_imp hd'
        · refine ih (rest.dropWhile fun d => !isPySpace d) ?_ w hw'
          calc (rest.dropWhile fun d => !isPySpace d).length
              ≤ rest.length := (List.dropWhile_sublist _).length_le
            _ ≤ n := by simpa using Nat.le_of_succ_le_succ hs

theorem splitWS_no_space (s : List Char) :
    ∀ w ∈ splitWS s, ∀ c ∈ w, isPySpace c = false :=
  splitWS_no_space_aux s.length s le_rfl

theorem joinSpace_cons_of_ne_nil {w : List Char} {ws : List (List Char)}
    (h : ws ≠ []) : joinSpace (w :: ws) = w ++ ' ' :: joinSpace ws := by
  cases ws with
  | nil => exact absurd rfl h
  | cons w2 rest => rfl

theorem joinUnderscore_cons_of_ne_nil {w : List Char} {ws : List (List Char)}
    (h : ws ≠ []) : joinUnderscore (w :: ws) = w ++ '_' :: joinUnderscore ws := by
  cases ws with
  | nil => exact absurd rfl h
  | cons w2 rest => rfl

theorem rstrip_collapse_aux :
    ∀ (n : Nat) (s : List Char), s.length ≤ n →
      (s = [] ∨ ∃ c t, s = c :: t ∧ isPySpace c = false) →
      rstripChars (collapseWS s) = joinSpace (splitWS s) := by
  intro n
  induction n with
  | zero =>
    intro s hs _
    have : s = [] := List.eq_nil_of_length_eq_zero (Nat.le_zero.mp hs)
    subst this
    simp [collapseWS, splitWS, rstripChars, joinSpace]
  | succ n ih =>
    intro s hs hhead
    rcases hhead with rfl | ⟨c, t, rfl, hc⟩
    · simp [collapseWS, splitWS, rstripChars, joinSpace]
    · have hw : ∀ d ∈ t.takeWhile (fun d => !isPySpace d), isPySpace d = false := by
        intro d hd
        simpa using List.mem_takeWhile_imp hd
      have hcw : ∀ d ∈ c :: t.takeWhile (fun d => !isPySpace d), isPySpace d = false := by
        intro d hd
        rcases List.mem_cons.mp hd with rfl | hd'
        · exact hc
        · exact hw d hd'
      have hdecomp : c :: t
          = (c :: t.takeWhile (fun d => !isPySpace d))
              ++ t.dropWhile (fun d => !isPySpace d) := by
        rw [List.cons_append, List.takeWhile_append_dropWhile]
      have hcoll : collapseWS (c :: t)
          = (c :: t.takeWhile (fun d => !isPySpace d))
              ++ collapseWS (t.dropWhile (fun d => !isPySpace d)) := by
        conv_lhs => rw [hdecomp]
        exact collapseWS_append_nonws _ hcw
      rw [splitWS_cons_nonspace t hc, hcoll]
      cases hdrop : t.dropWhile (fun d => !isPySpace d) with
      | nil =>
        rw [show collapseWS [] = [] from by rw [collapseWS],
          show splitWS [] = [] from by rw [splitWS], List.append_nil]
        rw [rstrip_eq_self_of_nonws hcw]
        rfl
      | cons d u =>
        have hd : isPySpace d = true := by
          have := dropWhile_head_false hdrop
          simpa using this
        rw [collapseWS_cons_space u hd, splitWS_cons_space u hd]
        cases hr : u.dropWhile isPySpace with
        | nil =>
          rw [show collapseWS [] = [] from by rw [collapseWS]]
          have hsu : splitWS u = [] := by
            rw [← splitWS_dropWhile u, hr, splitWS]
          rw [hsu, rstrip_append_ws (by decide), rstrip_eq_self_of_nonws hcw]
          rfl
        | cons e v =>
          have he : isPySpace e = false := dropWhile_head_false hr
          have hlen : (e :: v).length ≤ n := by
            have h1 : (e :: v).length ≤ u.length := by
              rw [← hr]
              exact (List.dropWhile_sublist _).length_le
            have h2 : (d :: u).length ≤ t.length := by
              rw [← hdrop]
              exact (List.dropWhile_sublist _).length_le
            have h3 : (c :: t).length ≤ n + 1 := hs
            simp only [List.length_cons] at h1 h2 h3 ⊢
            omega
          have hIH := ih (e :: v) hlen (Or.inr ⟨e, v, rfl, he⟩)
          have hnn : rstripChars (collapseWS (e :: v)) ≠ [] := by
            rw [collapseWS_cons_nonspace v he]
            exact rstrip_cons_nonws_ne_nil he
          have hsu : splitWS u = splitWS (e :: v) := by
            rw [← splitWS_dropWhile u, hr]
          rw [hsu]
          have hsne : splitWS (e :: v) ≠ [] := by
            rw [splitWS_cons_nonspace v he]
            simp
          rw [joinSpace_cons_of_ne_nil hsne]
          have hassoc : (c :: t.takeWhile (fun d => !isPySpace d))
                ++ ' ' :: collapseWS (e :: v)
              = ((c :: t.takeWhile (fun d => !isPySpace d)) ++ [' '])
                ++ collapseWS (e :: v) := by
            simp
          rw [hassoc, rstrip_append_of_ne_nil _ hnn, hIH]
          simp

theorem strip_collapse_eq_joinSpace (s : List Char) :
    stripChars (collapseWS s) = joinSpace (splitWS s) := by
  have h1 : stripChars (collapseWS s) = rstripChars (collapseWS (lstripChars s)) := by
    rw [stripChars, lstrip_collapse]
  have hhead : lstripChars s = [] ∨
      ∃ c t, lstripChars s = c :: t ∧ isPySpace c = false := by
    cases hl : lstripChars s with
    | nil => exact Or.inl rfl
    | cons c t =>
      simp only [lstripChars] at hl
      exact Or.inr ⟨c, t, rfl, dropWhile_head_false hl⟩
  rw [h1, rstrip_collapse_aux (lstripChars s).length (lstripChars s) le_rfl hhead]
  simp only [lstripChars]
  rw [splitWS_dropWhile]

theorem pyReplaceChar_nonws {w : List Char} (h : ∀ c ∈ w, isPySpace c = false) :
    pyReplaceChar w ' ' '_' = w := by
  induction w with
  | nil => rfl
  | cons a w' ih =>
    have ha : a ≠ ' ' := by
      intro he
      subst he
      exact absurd (h ' ' (by simp)) (by decide)
    have htail := ih (fun c hc => h c (by simp [hc]))
    simp only [pyReplaceChar, List.map_cons] at htail ⊢
    rw [if_neg ha, htail]

theorem replace_joinSpace :
    ∀ ws : List (List Char), (∀ w ∈ ws, ∀ c ∈ w, isPySpace c = false) →
      pyReplaceChar (joinSpace ws) ' ' '_' = joinUnderscore ws := by
  intro ws
  induction ws with
  | nil => intro _; rfl
  | cons w rest ih =>
    intro h
    cases rest with
    | nil => exact pyReplaceChar_nonws (h w (by simp))
    | cons w2 rest2 =>
      rw [joinSpace_cons_of_ne_nil (by simp), joinUnderscore_cons_of_ne_nil (by simp)]
      have hhead := pyReplaceChar_nonws (h w (by simp))
      have htail := ih (fun w' hw' => h w' (by simp [hw']))
      simp only [pyReplaceChar, List.map_append, List.map_cons] at hhead htail ⊢
      simp [hhead, htail]

theorem service_pipeline_eq (s : List Char) :
    pyReplaceChar (stripChars (collapseWS s)) ' ' '_' = joinUnderscore (splitWS s) := by
  rw [strip_collapse_eq_joinSpace]
  exact replace_joinSpace (splitWS s) (splitWS_no_space s)

theorem replaceFirstWithEmpty_of_isPrefix {l pat : List Char}
    (h : pat.isPrefixOf l = true) :
    replaceFirstWithEmpty l pat = l.drop pat.length := by
  cases l with
  | nil =>
    cases pat with
    | nil => rfl
    | cons p ps => cases h
  | cons c rest =>
    rw [replaceFirstWithEmpty, if_pos h]

theorem strip_ne_utah_space (l : List Char) : stripChars l ≠ "utah ".data := by
  intro h
  have h' : rstripChars (lstripChars l) = "utah".data ++ [' '] := h
  have := rstrip_last_not_space h'
  exact absurd this (by decide)

/-- C9: `get_service_from_title` passes `None` through, raises
`ValueError` (rather than returning an empty name) exactly when the
lower-cased stripped title is "utah", and otherwise returns the
lower-cased title with a leading "utah " token removed at most once and
its whitespace runs collapsed to single underscores (`specServiceName`,
the claim-side description). -/
theorem get_service_from_title_spec (t : List Char) :
    (get_service_from_title none = .ok none)
    ∧ (stripChars (t.map pyLowerChar) = "utah".data →
        get_service_from_title (some t)
          = .error ("Title " ++ String.mk t ++ " would result in empty service name"))
    ∧ (stripChars (t.map pyLowerChar) ≠ "utah".data →
        get_service_from_title (some t) = .ok (some (specServiceName t))) := by
  refine ⟨rfl, ?_, ?_⟩
  · intro h
    simp only [get_service_from_title]
    rw [if_pos (Or.inl h)]
  · intro h
    have h2 : ¬(stripChars (t.map pyLowerChar) = "utah".data
        ∨ stripChars (t.map pyLowerChar) = "utah ".data) := by
      rintro (h1 | h1)
      · exact h h1
      · exact strip_ne_utah_space _ h1
    simp only [get_service_from_title]
    rw [if_neg h2]
    by_cases hp : ("utah ").data.isPrefixOf (t.map pyLowerChar)
    · rw [if_pos hp, replaceFirstWithEmpty_of_isPrefix hp, service_pipeline_eq]
      simp only [specServiceName, removeLeadingUtah, if_pos hp]
      rfl
    · rw [if_neg hp, service_pipeline_eq]
      simp only [specServiceName, removeLeadingUtah, if_neg hp]

/-- C9 witness: `None` passes through; the lower-cased stripped form of
" Utah " is "utah" and raises; "Utah  Road Centerlines" maps to
"road_centerlines" (leading token removed, whitespace run collapsed). -/
theorem get_service_from_title_spec_witness :
    get_service_from_title none = .ok none
    ∧ get_service_from_title (some (" Utah ".data))
        = .error ("Title " ++ String.mk (" Utah ".data)
            ++ " would result in empty service name")
    ∧ get_service_from_title (some ("Utah  Road Centerlines".data))
        = .ok (some ("road_centerlines".data)) := by
  refine ⟨(get_service_from_title_spec []).1, ?_, ?_⟩
  · exact (get_service_from_title_spec (" Utah ".data)).2.1 (by decide)
  · have h := (get_service_from_title_spec ("Utah  Road Centerlines".data)).2.2 (by decide)
    rw [h]
    simp only [Except.ok.injEq, Option.some.injEq]
    simp [specServiceName, removeLeadingUtah, splitWS, joinUnderscore, isPySpace,
      pyLowerChar, List.takeWhile, List.dropWhile]

end Dolly
